import Mathlib

/-!
Shallow embedding of the JSON-RPC dispatch and safety-gating layer declared in
src/src/bitcoinrpc.h of the iocoin repository.  The header declares the error
code taxonomy, the command table types (CRPCTable, CRPCCommand) and the
converter and type checking helpers; the corresponding .cpp implementations are
not part of the source tree, so each operation below is modelled from the spec,
while the enum values, field names and signatures come from the header itself.
-/

namespace IocoinRPC

/-- Value_type enumeration of json_spirit (headers included by bitcoinrpc.h). -/
inductive Value_type where
  | obj_type
  | array_type
  | str_type
  | bool_type
  | int_type
  | real_type
  | null_type
deriving DecidableEq

/-- json_spirit Value: tagged union over null, bool, int, real, string,
ordered array and ordered object.  Real values are modelled as exact
rationals, so decimal formatting and parsing are exact. -/
inductive Value where
  | null
  | bool (b : Bool)
  | int (n : Int)
  | real (q : ℚ)
  | str (s : String)
  | arr (elems : List Value)
  | obj (entries : List (String × Value))

/-- The json_spirit type tag of a value. -/
def Value.type : Value → Value_type
  | .null => .null_type
  | .bool _ => .bool_type
  | .int _ => .int_type
  | .real _ => .real_type
  | .str _ => .str_type
  | .arr _ => .array_type
  | .obj _ => .obj_type

def RPC_INVALID_REQUEST : Int := -32600

def RPC_METHOD_NOT_FOUND : Int := -32601

def RPC_INVALID_PARAMS : Int := -32602

def RPC_INTERNAL_ERROR : Int := -32603

def RPC_PARSE_ERROR : Int := -32700

def RPC_MISC_ERROR : Int := -1

def RPC_FORBIDDEN_BY_SAFE_MODE : Int := -2

def RPC_TYPE_ERROR : Int := -3

def RPC_INVALID_ADDRESS_OR_KEY : Int := -5

def RPC_OUT_OF_MEMORY : Int := -7

def RPC_INVALID_PARAMETER : Int := -8

def RPC_DATABASE_ERROR : Int := -20

def RPC_DESERIALIZATION_ERROR : Int := -22

def RPC_CLIENT_NOT_CONNECTED : Int := -9

def RPC_CLIENT_IN_INITIAL_DOWNLOAD : Int := -10

def RPC_WALLET_ERROR : Int := -4

def RPC_WALLET_INSUFFICIENT_FUNDS : Int := -6

def RPC_WALLET_INVALID_ACCOUNT_NAME : Int := -11

def RPC_WALLET_KEYPOOL_RAN_OUT : Int := -12

def RPC_WALLET_UNLOCK_NEEDED : Int := -13

def RPC_WALLET_PASSPHRASE_INCORRECT : Int := -14

def RPC_WALLET_WRONG_ENC_STATE : Int := -15

def RPC_WALLET_ENCRYPTION_FAILED : Int := -16

def RPC_WALLET_ALREADY_UNLOCKED : Int := -17

/-- The fixed wire level error taxonomy: exactly the codes of the RPCErrorCode
enum at src/src/bitcoinrpc.h lines 34 to 67. -/
def errorTaxonomy : List Int :=
  [RPC_INVALID_REQUEST, RPC_METHOD_NOT_FOUND, RPC_INVALID_PARAMS, RPC_INTERNAL_ERROR,
   RPC_PARSE_ERROR, RPC_MISC_ERROR, RPC_FORBIDDEN_BY_SAFE_MODE, RPC_TYPE_ERROR,
   RPC_INVALID_ADDRESS_OR_KEY, RPC_OUT_OF_MEMORY, RPC_INVALID_PARAMETER, RPC_DATABASE_ERROR,
   RPC_DESERIALIZATION_ERROR, RPC_CLIENT_NOT_CONNECTED, RPC_CLIENT_IN_INITIAL_DOWNLOAD,
   RPC_WALLET_ERROR, RPC_WALLET_INSUFFICIENT_FUNDS, RPC_WALLET_INVALID_ACCOUNT_NAME,
   RPC_WALLET_KEYPOOL_RAN_OUT, RPC_WALLET_UNLOCK_NEEDED, RPC_WALLET_PASSPHRASE_INCORRECT,
   RPC_WALLET_WRONG_ENC_STATE, RPC_WALLET_ENCRYPTION_FAILED, RPC_WALLET_ALREADY_UNLOCKED]

/-- Modelled from the spec: JSONRPCError (declared at src/src/bitcoinrpc.h line 69,
implementation not under src/) builds the wire error object with the fields
code and message, in that order. -/
def JSONRPCError (code : Int) (message : String) : Value :=
  .obj [("code", .int code), ("message", .str message)]

/-- The code field of a wire error object, when the object has the canonical
error shape produced by JSONRPCError. -/
def errCode : Value → Option Int
  | .obj (("code", .int c) :: _) => some c
  | _ => none

/-- A value is a well formed wire error iff it is an object whose entries are an
integer code field followed by a string message field. -/
def isErrObj : Value → Bool
  | .obj [("code", .int _), ("message", .str _)] => true
  | _ => false

/-- A failure escaping a handler: either a thrown json_spirit value (the
convention for structured domain errors) or an unstructured internal fault
carrying only a message (a std::exception). -/
inductive HandlerFailure where
  | thrown (err : Value)
  | exn (msg : String)

/-- rpcfn_type (src/src/bitcoinrpc.h line 91): a handler takes the parameter
array and the fHelp flag and either returns a value or fails. -/
def rpcfn_type := List Value → Bool → Except HandlerFailure Value

/-- CRPCCommand (src/src/bitcoinrpc.h lines 93 to 100): name, handler,
okSafeMode (allowed in safe mode) and unlocked (requires an unlocked wallet). -/
structure CRPCCommand where
  name : String
  actor : rpcfn_type
  okSafeMode : Bool
  unlocked : Bool

/-- CRPCTable (src/src/bitcoinrpc.h lines 107 to 126): the command registry,
with mapCommands holding the name to command mapping. -/
structure CRPCTable where
  mapCommands : List (String × CRPCCommand)

/-- Modelled from the spec: CRPCTable operator[] (src/src/bitcoinrpc.h line 111,
implementation not under src/), a const lookup in mapCommands returning the
entry for the name when present and none (the null pointer) when absent. -/
def CRPCTable.opIndex (t : CRPCTable) (name : String) : Option CRPCCommand :=
  (t.mapCommands.find? (fun p => p.fst == name)).map Prod.snd

/-- Modelled from the spec: the observable effect of one lookup call, as the
result paired with the table afterwards.  operator[] is a const method on an
immutable registry, so the table component is the table unchanged; unlike
std map operator[], no default entry is ever inserted. -/
def CRPCTable.lookupStep (t : CRPCTable) (name : String) :
    Option CRPCCommand × CRPCTable :=
  (t.opIndex name, t)

/-- Modelled from the spec: the process wide state the safety gate reads: the
safe mode flag (SafeModeState), the wallet unlock expiry nWalletUnlockTime
(src/src/bitcoinrpc.h line 130; absent means locked), and the current time. -/
structure NodeState where
  fSafeMode : Bool
  nWalletUnlockTime : Option Int
  now : Int

/-- Modelled from the spec: the wallet counts as locked when the unlock expiry
is absent or is not after the current time. -/
def walletIsLocked (st : NodeState) : Bool :=
  match st.nWalletUnlockTime with
  | none => true
  | some t => decide (t ≤ st.now)

/-- Modelled from the spec: EnsureWalletIsUnlocked (src/src/bitcoinrpc.h line
139, implementation not under src/) fails with RPC_WALLET_UNLOCK_NEEDED when
the wallet is locked, directing the caller to walletpassphrase. -/
def EnsureWalletIsUnlocked (st : NodeState) : Except Value Unit :=
  if walletIsLocked st then
    .error (JSONRPCError RPC_WALLET_UNLOCK_NEEDED
      "Error: Please enter the wallet passphrase with walletpassphrase first.")
  else .ok ()

/-- Modelled from the spec: handler invocation with fHelp = false; a thrown
json_spirit value propagates unchanged, an unstructured fault is wrapped as
RPC_MISC_ERROR (std::exception thrown in command handling, per the enum
comment at src/src/bitcoinrpc.h line 44). -/
def invokeActor (cmd : CRPCCommand) (params : List Value) : Except Value Value :=
  match cmd.actor params false with
  | .ok v => .ok v
  | .error (.thrown e) => .error e
  | .error (.exn msg) => .error (JSONRPCError RPC_MISC_ERROR msg)

/-- Modelled from the spec: CRPCTable execute (src/src/bitcoinrpc.h lines 116
to 123, implementation not under src/): look the method up (an absent name
yields RPC_METHOD_NOT_FOUND), then run the safety gate with the safe mode
check first and the wallet unlock check second, then invoke the handler.
Handler specific parameter type checks live inside the handlers. -/
def CRPCTable.execute (t : CRPCTable) (st : NodeState) (method : String)
    (params : List Value) : Except Value Value :=
  match t.opIndex method with
  | none => .error (JSONRPCError RPC_METHOD_NOT_FOUND "Method not found")
  | some pcmd =>
    if st.fSafeMode && !pcmd.okSafeMode then
      .error (JSONRPCError RPC_FORBIDDEN_BY_SAFE_MODE "Safe mode")
    else if pcmd.unlocked then
      match EnsureWalletIsUnlocked st with
      | .error e => .error e
      | .ok _ => invokeActor pcmd params
    else invokeActor pcmd params

/-- A table with no commands, for concrete evaluation. -/
def emptyTable : CRPCTable := ⟨[]⟩

/-- A state with safe mode active and the wallet unlock window expired. -/
def lockedSafeState : NodeState := ⟨true, some 50, 100⟩

/-- Claim C1: for every method name not present in the command registry,
execute fails with the unknown method error (code -32601) for every node
state, so no handler runs and no safety gate error can be produced even while
the wallet is locked or safe mode is active. -/
theorem execute_unknown_method (t : CRPCTable) (st : NodeState) (method : String)
    (params : List Value) (h : t.opIndex method = none) :
    t.execute st method params =
      .error (JSONRPCError RPC_METHOD_NOT_FOUND "Method not found") := by
  unfold CRPCTable.execute
  rw [h]

theorem execute_unknown_method_witness :
    emptyTable.execute lockedSafeState "nosuchmethod" [] =
      .error (JSONRPCError RPC_METHOD_NOT_FOUND "Method not found") :=
  execute_unknown_method emptyTable lockedSafeState "nosuchmethod" [] rfl

/-- A handler that always succeeds with a string result. -/
def okHandler : rpcfn_type := fun _ _ => .ok (.str "done")

/-- A command not allowed in safe mode and needing an unlocked wallet. -/
def demoCmd : CRPCCommand := ⟨"demo", okHandler, false, true⟩

/-- A command allowed in safe mode and needing an unlocked wallet. -/
def gatedCmd : CRPCCommand := ⟨"gated", okHandler, true, true⟩

/-- A command whose handler raises an unstructured internal fault. -/
def failCmd : CRPCCommand := ⟨"boom", fun _ _ => .error (.exn "boom"), true, false⟩

/-- A three command registry for concrete evaluation. -/
def demoTable : CRPCTable :=
  ⟨[("demo", demoCmd), ("gated", gatedCmd), ("boom", failCmd)]⟩

/-- A state with safe mode off and no unlock window. -/
def lockedState : NodeState := ⟨false, none, 100⟩

/-- A state whose unlock expiry lies in the past. -/
def pastState : NodeState := ⟨false, some 50, 100⟩

/-- A state whose unlock expiry lies in the future. -/
def futureState : NodeState := ⟨false, some 200, 100⟩

/-- Claim C2: the safety gate runs the safe mode check before the wallet
unlock check: a command with okSafeMode false fails with code -2 while safe
mode is active, for every wallet lock state; otherwise, when the safe mode
check passes, a command with unlocked true fails with code -13 whenever the
unlock window is absent or expired.  Both checks are pure reads of the state. -/
theorem safety_gate_order (t : CRPCTable) (st : NodeState) (method : String)
    (params : List Value) (cmd : CRPCCommand) (h : t.opIndex method = some cmd) :
    (cmd.okSafeMode = false → st.fSafeMode = true →
      t.execute st method params =
        .error (JSONRPCError RPC_FORBIDDEN_BY_SAFE_MODE "Safe mode")) ∧
    ((st.fSafeMode = false ∨ cmd.okSafeMode = true) → cmd.unlocked = true →
      walletIsLocked st = true →
      t.execute st method params =
        .error (JSONRPCError RPC_WALLET_UNLOCK_NEEDED
          "Error: Please enter the wallet passphrase with walletpassphrase first.")) := by
  constructor
  · intro hok hsafe
    unfold CRPCTable.execute
    rw [h]
    simp [hok, hsafe]
  · intro hpass hunl hlock
    unfold CRPCTable.execute
    rw [h]
    have hgate : (st.fSafeMode && !cmd.okSafeMode) = false := by
      rcases hpass with h1 | h1 <;> simp [h1]
    simp [hgate, hunl, EnsureWalletIsUnlocked, hlock]

theorem safety_gate_order_witness :
    demoTable.execute lockedSafeState "demo" [] =
      .error (JSONRPCError RPC_FORBIDDEN_BY_SAFE_MODE "Safe mode") ∧
    demoTable.execute lockedState "gated" [] =
      .error (JSONRPCError RPC_WALLET_UNLOCK_NEEDED
        "Error: Please enter the wallet passphrase with walletpassphrase first.") :=
  ⟨(safety_gate_order demoTable lockedSafeState "demo" [] demoCmd rfl).1 rfl rfl,
   (safety_gate_order demoTable lockedState "gated" [] gatedCmd rfl).2
     (Or.inl rfl) rfl rfl⟩

/-- Claim C8: once the unlock expiry is in the past, the safety gate treats a
command with unlocked true as wallet locked and fails with code -13, and the
outcome is identical to the state whose expiry has been physically cleared;
an expiry in the future lets the call pass the gate and reach the handler. -/
theorem unlock_expiry_gate (t : CRPCTable) (st : NodeState) (method : String)
    (params : List Value) (cmd : CRPCCommand) (tm : Int)
    (h : t.opIndex method = some cmd) (hunl : cmd.unlocked = true)
    (hsafe : st.fSafeMode = false ∨ cmd.okSafeMode = true)
    (htime : st.nWalletUnlockTime = some tm) :
    (tm ≤ st.now →
      t.execute st method params =
        .error (JSONRPCError RPC_WALLET_UNLOCK_NEEDED
          "Error: Please enter the wallet passphrase with walletpassphrase first.") ∧
      t.execute st method params =
        t.execute { st with nWalletUnlockTime := none } method params) ∧
    (st.now < tm → t.execute st method params = invokeActor cmd params) := by
  have hgate : (st.fSafeMode && !cmd.okSafeMode) = false := by
    rcases hsafe with h1 | h1 <;> simp [h1]
  constructor
  · intro hpast
    have hlock : walletIsLocked st = true := by
      simp [walletIsLocked, htime, hpast]
    have hlhs : t.execute st method params =
        .error (JSONRPCError RPC_WALLET_UNLOCK_NEEDED
          "Error: Please enter the wallet passphrase with walletpassphrase first.") := by
      unfold CRPCTable.execute
      rw [h]
      simp [hgate, hunl, EnsureWalletIsUnlocked, hlock]
    refine ⟨hlhs, ?_⟩
    rw [hlhs]
    unfold CRPCTable.execute
    rw [h]
    simp [hgate, hunl, EnsureWalletIsUnlocked, walletIsLocked]
  · intro hfut
    have hlock : walletIsLocked st = false := by
      simp [walletIsLocked, htime]
      exact hfut
    unfold CRPCTable.execute
    rw [h]
    simp [hgate, hunl, EnsureWalletIsUnlocked, hlock]

theorem unlock_expiry_gate_witness :
    (demoTable.execute pastState "gated" [] =
      .error (JSONRPCError RPC_WALLET_UNLOCK_NEEDED
        "Error: Please enter the wallet passphrase with walletpassphrase first.") ∧
     demoTable.execute pastState "gated" [] =
      demoTable.execute { pastState with nWalletUnlockTime := none } "gated" []) ∧
    demoTable.execute futureState "gated" [] = invokeActor gatedCmd [] :=
  ⟨(unlock_expiry_gate demoTable pastState "gated" [] gatedCmd 50 rfl rfl
      (Or.inr rfl) rfl).1 (by decide),
   (unlock_expiry_gate demoTable futureState "gated" [] gatedCmd 200 rfl rfl
      (Or.inr rfl) rfl).2 (by decide)⟩

/-- Claim C10: registry lookup is read only: one lookup call leaves the table
unchanged (no default entry is inserted for an absent key), an absent name
yields none rather than a default command, and a repeated lookup of the same
name after a lookup returns the same result. -/
theorem lookup_readonly (t : CRPCTable) (name : String) :
    (t.lookupStep name).snd = t ∧
    (t.opIndex name = none ↔ ∀ p ∈ t.mapCommands, p.fst ≠ name) ∧
    ((t.lookupStep name).snd.lookupStep name).fst = (t.lookupStep name).fst := by
  refine ⟨rfl, ?_, rfl⟩
  unfold CRPCTable.opIndex
  rw [Option.map_eq_none', List.find?_eq_none]
  simp

theorem lookup_readonly_witness :
    (demoTable.lookupStep "absentname").snd = demoTable ∧
    (demoTable.opIndex "absentname" = none ↔
      ∀ p ∈ demoTable.mapCommands, p.fst ≠ "absentname") ∧
    ((demoTable.lookupStep "absentname").snd.lookupStep "absentname").fst =
      (demoTable.lookupStep "absentname").fst :=
  lookup_readonly demoTable "absentname"

/-- COIN: the fixed point scale, 10^8 smallest units per coin (spec section 4.1). -/
def COIN : Int := 100000000

/-- The numeric content of a value: integer and real values are numbers. -/
def numericValue : Value → Option ℚ
  | .int n => some (n : ℚ)
  | .real q => some q
  | _ => none

/-- Modelled from the spec: ValueFromAmount (src/src/bitcoinrpc.h line 132,
implementation not under src/) renders a fixed point amount as a real value
with exactly 8 fractional decimal digits, that is the exact rational
amount / 10^8. -/
def ValueFromAmount (amount : Int) : Value :=
  .real ((amount : ℚ) / (COIN : ℚ))

/-- Modelled from the spec: AmountFromValue (src/src/bitcoinrpc.h line 131,
implementation not under src/): the input must be numeric, non negative, at
most the maximum supply constant, and representable at scale 10^8; each
violation fails with an RPC_TYPE_ERROR wire error.  The maximum supply
constant lives outside src/, so it is passed as the parameter maxMoney, in
smallest units. -/
def AmountFromValue (maxMoney : Int) (v : Value) : Except Value Int :=
  match numericValue v with
  | none => .error (JSONRPCError RPC_TYPE_ERROR "Amount is not a number")
  | some d =>
    if d < 0 then .error (JSONRPCError RPC_TYPE_ERROR "Amount out of range")
    else if (maxMoney : ℚ) < d * (COIN : ℚ) then
      .error (JSONRPCError RPC_TYPE_ERROR "Amount out of range")
    else if (d * (COIN : ℚ)).den ≠ 1 then
      .error (JSONRPCError RPC_TYPE_ERROR "Invalid amount")
    else .ok (d * (COIN : ℚ)).num

/-- Claim C3: the round trip law: for every representable amount n between 0
and the supply maximum, converting n to its 8 fractional digit real value and
back yields n again. -/
theorem amount_roundtrip (maxMoney n : Int) (h0 : 0 ≤ n) (h1 : n ≤ maxMoney) :
    AmountFromValue maxMoney (ValueFromAmount n) = .ok n := by
  have hC : ((COIN : ℚ)) ≠ 0 := by norm_num [COIN]
  have hmul : ((n : ℚ) / (COIN : ℚ)) * (COIN : ℚ) = (n : ℚ) := div_mul_cancel₀ _ hC
  have hnn : ¬ ((n : ℚ) / (COIN : ℚ) < 0) := by
    apply not_lt.mpr
    apply div_nonneg
    · exact_mod_cast h0
    · norm_num [COIN]
  have hle : ¬ ((maxMoney : ℚ) < (n : ℚ) / (COIN : ℚ) * (COIN : ℚ)) := by
    rw [hmul]
    exact not_lt.mpr (by exact_mod_cast h1)
  have hden : ¬ (((n : ℚ) / (COIN : ℚ) * (COIN : ℚ)).den ≠ 1) := by
    rw [hmul]
    simp
  simp only [AmountFromValue, ValueFromAmount, numericValue]
  rw [if_neg hnn, if_neg hle, if_neg hden, hmul]
  simp

theorem amount_roundtrip_witness :
    AmountFromValue 2100000000000000 (ValueFromAmount 123456789) = .ok 123456789 :=
  amount_roundtrip 2100000000000000 123456789 (by decide) (by decide)

/-- Claim C4: AmountFromValue rejects, with a TypeError class wire error,
every numeric input that is negative, exceeds the supply maximum, or carries
fractional precision not representable at scale 10^8; and a successful
conversion is exact, never truncating or wrapping: the returned amount lies
between 0 and the supply maximum and equals the input value times 10^8. -/
theorem amount_from_value_checks (maxMoney : Int) (v : Value) (d : ℚ)
    (hd : numericValue v = some d) :
    ((d < 0 ∨ (maxMoney : ℚ) < d * (COIN : ℚ) ∨ (d * (COIN : ℚ)).den ≠ 1) →
      ∃ msg, AmountFromValue maxMoney v = .error (JSONRPCError RPC_TYPE_ERROR msg)) ∧
    (∀ n : Int, AmountFromValue maxMoney v = .ok n →
      0 ≤ n ∧ n ≤ maxMoney ∧ (n : ℚ) = d * (COIN : ℚ)) := by
  constructor
  · intro hbad
    unfold AmountFromValue
    rw [hd]
    by_cases h1 : d < 0
    · exact ⟨"Amount out of range", by simp [h1]⟩
    by_cases h2 : (maxMoney : ℚ) < d * (COIN : ℚ)
    · exact ⟨"Amount out of range", by simp [h1, h2]⟩
    have h3 : (d * (COIN : ℚ)).den ≠ 1 := by
      rcases hbad with hb | hb | hb
      · exact absurd hb h1
      · exact absurd hb h2
      · exact hb
    exact ⟨"Invalid amount", by simp [h1, h2, h3]⟩
  · intro n hok
    unfold AmountFromValue at hok
    rw [hd] at hok
    by_cases h1 : d < 0
    · simp [h1] at hok
    by_cases h2 : (maxMoney : ℚ) < d * (COIN : ℚ)
    · simp [h1, h2] at hok
    by_cases h3 : (d * (COIN : ℚ)).den = 1
    · have hok2 : (d * (COIN : ℚ)).num = n := by
        simpa [h1, h2, h3] using hok
      have hcast : ((d * (COIN : ℚ)).num : ℚ) = d * (COIN : ℚ) :=
        (Rat.den_eq_one_iff _).mp h3
      have hval : (n : ℚ) = d * (COIN : ℚ) := by
        rw [← hok2]
        exact hcast
      refine ⟨?_, ?_, hval⟩
      · have hd0 : (0 : ℚ) ≤ d := not_lt.mp h1
        have hq : (0 : ℚ) ≤ (n : ℚ) := by
          rw [hval]
          apply mul_nonneg hd0
          norm_num [COIN]
        exact_mod_cast hq
      · have hq : (n : ℚ) ≤ (maxMoney : ℚ) := by
          rw [hval]
          exact not_lt.mp h2
        exact_mod_cast hq
    · simp [h1, h2, h3] at hok

theorem amount_from_value_checks_witness :
    ∃ msg, AmountFromValue 100 (Value.real (-1)) =
      .error (JSONRPCError RPC_TYPE_ERROR msg) :=
  (amount_from_value_checks 100 (Value.real (-1)) (-1) rfl).1 (Or.inl (by norm_num))

/-- Printable name of a json_spirit type tag. -/
def typeName : Value_type → String
  | .obj_type => "object"
  | .array_type => "array"
  | .str_type => "string"
  | .bool_type => "bool"
  | .int_type => "integer"
  | .real_type => "real"
  | .null_type => "null"

/-- Modelled from the spec: the message of a type mismatch error, identifying
the 1 based position and the expected versus actual kind. -/
def typeMismatchMsg (pos : Nat) (expected actual : Value_type) : String :=
  "Expected type " ++ typeName expected ++ ", got " ++ typeName actual ++
    " at position " ++ toString pos

/-- Whether a value is accepted where the given kind is expected: the type tag
matches, or null is allowed and the value is null. -/
def typeAccepted (fAllowNull : Bool) (v : Value) (t : Value_type) : Bool :=
  v.type == t || (fAllowNull && (v.type == Value_type.null_type))

/-- Recursion for RPCTypeCheck; pos is the 0 based position of the head. -/
def RPCTypeCheckAux (fAllowNull : Bool) :
    List Value → List Value_type → Nat → Except Value Unit
  | _, [], _ => .ok ()
  | [], _ :: _, _ => .ok ()
  | v :: vs, t :: ts, pos =>
    if typeAccepted fAllowNull v t then RPCTypeCheckAux fAllowNull vs ts (pos + 1)
    else .error (JSONRPCError RPC_TYPE_ERROR (typeMismatchMsg (pos + 1) t v.type))

/-- Modelled from the spec: the array form of RPCTypeCheck (src/src/bitcoinrpc.h
lines 77 to 83, implementation not under src/): positions are checked one by
one up to the length of the expected sequence; per the header comment it does
not check that the right number of arguments are passed, so a shorter actual
array is not an error; the first mismatch fails with an RPC_TYPE_ERROR naming
the 1 based position, and with fAllowNull a null actual value passes any
expectation. -/
def RPCTypeCheck (params : List Value) (typesExpected : List Value_type)
    (fAllowNull : Bool) : Except Value Unit :=
  RPCTypeCheckAux fAllowNull params typesExpected 0

theorem rpcTypeCheckAux_ok (fAllowNull : Bool) (ts : List Value_type) :
    ∀ (vs : List Value) (pos : Nat),
      (∀ i, i < vs.length → i < ts.length →
        typeAccepted fAllowNull (vs.getD i .null) (ts.getD i .null_type) = true) →
      RPCTypeCheckAux fAllowNull vs ts pos = .ok () := by
  induction ts with
  | nil =>
    intro vs pos _
    cases vs <;> rfl
  | cons t ts ih =>
    intro vs pos h
    cases vs with
    | nil => rfl
    | cons v vs =>
      have h0 := h 0 (by simp) (by simp)
      simp only [List.getD_cons_zero] at h0
      unfold RPCTypeCheckAux
      rw [if_pos h0]
      apply ih
      intro i hi hi2
      have hstep := h (i + 1) (by simpa using Nat.succ_lt_succ hi)
        (by simpa using Nat.succ_lt_succ hi2)
      simpa [List.getD_cons_succ] using hstep

theorem rpcTypeCheckAux_err (fAllowNull : Bool) :
    ∀ (i : Nat) (vs : List Value) (ts : List Value_type) (pos : Nat),
      i < vs.length → i < ts.length →
      (∀ j, j < i →
        typeAccepted fAllowNull (vs.getD j .null) (ts.getD j .null_type) = true) →
      typeAccepted fAllowNull (vs.getD i .null) (ts.getD i .null_type) = false →
      RPCTypeCheckAux fAllowNull vs ts pos =
        .error (JSONRPCError RPC_TYPE_ERROR
          (typeMismatchMsg (pos + i + 1) (ts.getD i .null_type)
            (vs.getD i .null).type)) := by
  intro i
  induction i with
  | zero =>
    intro vs ts pos h1 h2 hprev hbad
    cases vs with
    | nil => simp at h1
    | cons v vs =>
      cases ts with
      | nil => simp at h2
      | cons t ts =>
        simp only [List.getD_cons_zero] at hbad ⊢
        unfold RPCTypeCheckAux
        rw [if_neg (by simp [hbad])]
  | succ i ih =>
    intro vs ts pos h1 h2 hprev hbad
    cases vs with
    | nil => simp at h1
    | cons v vs =>
      cases ts with
      | nil => simp at h2
      | cons t ts =>
        have h0 := hprev 0 (Nat.succ_pos _)
        simp only [List.getD_cons_zero] at h0
        unfold RPCTypeCheckAux
        rw [if_pos h0]
        simp only [List.getD_cons_succ] at hbad ⊢
        have harith : pos + (i + 1) + 1 = pos + 1 + i + 1 := by omega
        rw [harith]
        exact ih vs ts (pos + 1) (by simpa using h1) (by simpa using h2)
          (fun j hj => by
            have hs := hprev (j + 1) (Nat.succ_lt_succ hj)
            simpa [List.getD_cons_succ] using hs)
          hbad

/-- Claim C5: the array form type checker checks positions only up to the
length of the expected sequence, so a shorter actual array passing every
checked position is accepted; the first mismatch at a checked position fails
with an RPC_TYPE_ERROR identifying the 1 based position and the expected
versus actual kind; and with fAllowNull set a null actual value is accepted
at any position regardless of the expected kind. -/
theorem rpc_type_check_spec (params : List Value) (ts : List Value_type)
    (fAllowNull : Bool) :
    ((∀ i, i < params.length → i < ts.length →
        typeAccepted fAllowNull (params.getD i .null) (ts.getD i .null_type) = true) →
      RPCTypeCheck params ts fAllowNull = .ok ()) ∧
    (∀ i, i < params.length → i < ts.length →
      (∀ j, j < i →
        typeAccepted fAllowNull (params.getD j .null) (ts.getD j .null_type) = true) →
      typeAccepted fAllowNull (params.getD i .null) (ts.getD i .null_type) = false →
      RPCTypeCheck params ts fAllowNull =
        .error (JSONRPCError RPC_TYPE_ERROR
          (typeMismatchMsg (i + 1) (ts.getD i .null_type)
            (params.getD i .null).type))) ∧
    (∀ t, typeAccepted true Value.null t = true) := by
  refine ⟨?_, ?_, ?_⟩
  · intro h
    exact rpcTypeCheckAux_ok fAllowNull ts params 0 h
  · intro i hi hi2 hprev hbad
    have herr := rpcTypeCheckAux_err fAllowNull i params ts 0 hi hi2 hprev hbad
    simpa using herr
  · intro t
    simp [typeAccepted, Value.type]

theorem rpc_type_check_spec_witness :
    RPCTypeCheck [Value.str "x", Value.int 5]
      [Value_type.str_type, Value_type.int_type] false = .ok () ∧
    RPCTypeCheck [Value.str "x", Value.str "y"]
      [Value_type.str_type, Value_type.int_type] false =
      .error (JSONRPCError RPC_TYPE_ERROR
        (typeMismatchMsg 2 Value_type.int_type Value_type.str_type)) ∧
    RPCTypeCheck [Value.null, Value.int 5]
      [Value_type.str_type, Value_type.int_type] true = .ok () ∧
    RPCTypeCheck [Value.str "x"]
      [Value_type.str_type, Value_type.int_type] false = .ok () :=
  ⟨(rpc_type_check_spec _ _ _).1 (by
      intro i hi hi2
      match i with
      | 0 => rfl
      | 1 => rfl),
   (rpc_type_check_spec _ _ _).2.1 1 (by decide) (by decide)
      (by
        intro j hj
        match j, hj with
        | 0, _ => rfl)
      rfl,
   (rpc_type_check_spec _ _ _).1 (by
      intro i hi hi2
      match i with
      | 0 => rfl
      | 1 => rfl),
   (rpc_type_check_spec _ _ _).1 (by
      intro i hi hi2
      match i, hi with
      | 0, _ => rfl)⟩

/-- A hexadecimal digit, either case. -/
def isHexChar (c : Char) : Bool :=
  c.isDigit || (decide ('a' ≤ c) && decide (c ≤ 'f')) ||
    (decide ('A' ≤ c) && decide (c ≤ 'F'))

/-- The numeric value of a hexadecimal digit. -/
def hexDigitVal (c : Char) : Nat :=
  if c.isDigit then c.toNat - '0'.toNat
  else if decide ('a' ≤ c) then c.toNat - 'a'.toNat + 10
  else c.toNat - 'A'.toNat + 10

/-- A hexadecimal character list read as a natural number, the 256 bit hash. -/
def hexToNat (cs : List Char) : Nat :=
  cs.foldl (fun a c => a * 16 + hexDigitVal c) 0

/-- Whether a value is a string of exactly 64 hexadecimal characters. -/
def isHash64 : Value → Bool
  | .str s => s.data.length == 64 && s.data.all isHexChar
  | _ => false

/-- Modelled from the spec: the deserialization error message, embedding the
label argument for caller diagnostics. -/
def hashErrMsg (aliasStr : String) : String :=
  aliasStr ++ " must be a hexadecimal string of length 64"

/-- Modelled from the spec: ParseHashV (src/src/bitcoinrpc.h line 145,
implementation not under src/): the input must be a string value of exactly
64 hexadecimal characters (either case); anything else fails with an
RPC_DESERIALIZATION_ERROR whose message embeds the label argument. -/
def ParseHashV (v : Value) (aliasStr : String) : Except Value Nat :=
  match v with
  | .str s =>
    if s.data.length == 64 && s.data.all isHexChar then .ok (hexToNat s.data)
    else .error (JSONRPCError RPC_DESERIALIZATION_ERROR (hashErrMsg aliasStr))
  | _ => .error (JSONRPCError RPC_DESERIALIZATION_ERROR (hashErrMsg aliasStr))

/-- Claim C7: ParseHashV succeeds exactly on string values of exactly 64
hexadecimal characters, case insensitive; for any other value, any other
length, or any non hexadecimal character it fails with an
RPC_DESERIALIZATION_ERROR whose message embeds the label argument. -/
theorem parse_hash_spec (v : Value) (aliasStr : String) :
    ((∃ h, ParseHashV v aliasStr = .ok h) ↔
      ∃ s, v = Value.str s ∧ s.data.length = 64 ∧ s.data.all isHexChar = true) ∧
    (isHash64 v = false →
      ParseHashV v aliasStr =
        .error (JSONRPCError RPC_DESERIALIZATION_ERROR (hashErrMsg aliasStr))) := by
  constructor
  · constructor
    · rintro ⟨h, hok⟩
      cases v with
      | str s =>
        by_cases hc : (s.data.length == 64 && s.data.all isHexChar) = true
        · rcases Bool.and_eq_true .. |>.mp hc with ⟨hl, ha⟩
          exact ⟨s, rfl, by simpa using hl, ha⟩
        · simp only [ParseHashV] at hok
          rw [if_neg hc] at hok
          exact Except.noConfusion hok
      | null => exact Except.noConfusion hok
      | bool b => exact Except.noConfusion hok
      | int n => exact Except.noConfusion hok
      | real q => exact Except.noConfusion hok
      | arr l => exact Except.noConfusion hok
      | obj l => exact Except.noConfusion hok
    · rintro ⟨s, hv, hlen, hhex⟩
      subst hv
      refine ⟨hexToNat s.data, ?_⟩
      simp only [ParseHashV]
      rw [if_pos (by simp [hlen, hhex])]
  · intro hbad
    cases v with
    | str s =>
      have hc : (s.data.length == 64 && s.data.all isHexChar) = false := by
        simpa [isHash64] using hbad
      have hc' : ¬ ((s.data.length == 64 && s.data.all isHexChar) = true) := by
        rw [hc]
        exact Bool.false_ne_true
      simp only [ParseHashV]
      rw [if_neg hc']
    | null => rfl
    | bool b => rfl
    | int n => rfl
    | real q => rfl
    | arr l => rfl
    | obj l => rfl

theorem parse_hash_spec_witness :
    (∃ h, ParseHashV (Value.str (String.mk (List.replicate 64 'A'))) "txid" = .ok h) ∧
    ParseHashV (Value.str (String.mk (List.replicate 63 'a'))) "txid" =
      .error (JSONRPCError RPC_DESERIALIZATION_ERROR (hashErrMsg "txid")) ∧
    ParseHashV (Value.str (String.mk (List.replicate 65 'a'))) "txid" =
      .error (JSONRPCError RPC_DESERIALIZATION_ERROR (hashErrMsg "txid")) ∧
    ParseHashV (Value.str (String.mk ('g' :: List.replicate 63 'a'))) "txid" =
      .error (JSONRPCError RPC_DESERIALIZATION_ERROR (hashErrMsg "txid")) :=
  ⟨(parse_hash_spec _ "txid").1.mpr ⟨_, rfl, by decide, by decide⟩,
   (parse_hash_spec _ "txid").2 (by decide),
   (parse_hash_spec _ "txid").2 (by decide),
   (parse_hash_spec _ "txid").2 (by decide)⟩

theorem errCode_JSONRPCError (c : Int) (m : String) :
    errCode (JSONRPCError c m) = some c := rfl

theorem rpcTypeCheckAux_err_code (fAllowNull : Bool) :
    ∀ (ts : List Value_type) (vs : List Value) (pos : Nat) (e : Value),
      RPCTypeCheckAux fAllowNull vs ts pos = .error e →
      errCode e = some RPC_TYPE_ERROR := by
  intro ts
  induction ts with
  | nil =>
    intro vs pos e he
    cases vs <;> exact Except.noConfusion he
  | cons t ts ih =>
    intro vs pos e he
    cases vs with
    | nil => exact Except.noConfusion he
    | cons v vs =>
      unfold RPCTypeCheckAux at he
      by_cases hacc : typeAccepted fAllowNull v t = true
      · rw [if_pos hacc] at he
        exact ih vs (pos + 1) e he
      · rw [if_neg hacc] at he
        cases he
        rfl

/-- Claim C6 counterexample: a type checker rejection at a concrete input is
surfaced with wire code -3 (RPC_TYPE_ERROR, the code the enum comment at
src/src/bitcoinrpc.h line 46 reserves for an unexpected parameter type), and
-3 differs from -32602 (RPC_INVALID_PARAMS), so the claim as stated fails. -/
theorem type_error_code_counterexample :
    RPCTypeCheck [Value.str "x"] [Value_type.int_type] false =
      .error (JSONRPCError RPC_TYPE_ERROR
        (typeMismatchMsg 1 Value_type.int_type Value_type.str_type)) ∧
    errCode (JSONRPCError RPC_TYPE_ERROR
        (typeMismatchMsg 1 Value_type.int_type Value_type.str_type)) = some (-3) ∧
    RPC_INVALID_PARAMS ≠ (-3 : Int) := by
  refine ⟨rfl, rfl, by decide⟩

/-- Claim C6 (amended): every rejection by the type checker or by the amount
converter is surfaced with wire code -3 (RPC_TYPE_ERROR) and every rejection
by the hash converter with wire code -22 (RPC_DESERIALIZATION_ERROR); both
codes belong to the fixed taxonomy, so these rejections never carry a code
outside the taxonomy table. -/
theorem converter_error_codes (params : List Value) (ts : List Value_type)
    (fAllowNull : Bool) (maxMoney : Int) (v w : Value) (label : String) :
    (∀ e, RPCTypeCheck params ts fAllowNull = .error e →
      errCode e = some RPC_TYPE_ERROR) ∧
    (∀ e, AmountFromValue maxMoney v = .error e →
      errCode e = some RPC_TYPE_ERROR) ∧
    (∀ e, ParseHashV w label = .error e →
      errCode e = some RPC_DESERIALIZATION_ERROR) ∧
    RPC_TYPE_ERROR ∈ errorTaxonomy ∧ RPC_DESERIALIZATION_ERROR ∈ errorTaxonomy := by
  refine ⟨?_, ?_, ?_, by decide, by decide⟩
  · intro e he
    exact rpcTypeCheckAux_err_code fAllowNull ts params 0 e he
  · intro e he
    unfold AmountFromValue at he
    split at he
    · cases he
      rfl
    · split at he
      · cases he
        rfl
      · split at he
        · cases he
          rfl
        · split at he
          · cases he
            rfl
          · exact Except.noConfusion he
  · intro e he
    cases w with
    | str s =>
      simp only [ParseHashV] at he
      by_cases hc : (s.data.length == 64 && s.data.all isHexChar) = true
      · rw [if_pos hc] at he
        exact Except.noConfusion he
      · rw [if_neg hc] at he
        cases he
        rfl
    | null => cases he; rfl
    | bool b => cases he; rfl
    | int n => cases he; rfl
    | real q => cases he; rfl
    | arr l => cases he; rfl
    | obj l => cases he; rfl

theorem converter_error_codes_witness :
    errCode (JSONRPCError RPC_TYPE_ERROR
      (typeMismatchMsg 1 Value_type.int_type Value_type.str_type)) =
        some RPC_TYPE_ERROR ∧
    errCode (JSONRPCError RPC_DESERIALIZATION_ERROR (hashErrMsg "blockhash")) =
        some RPC_DESERIALIZATION_ERROR ∧
    RPC_TYPE_ERROR ∈ errorTaxonomy :=
  ⟨(converter_error_codes [Value.str "x"] [Value_type.int_type] false 0
      Value.null Value.null "blockhash").1 _ rfl,
   (converter_error_codes [Value.str "x"] [Value_type.int_type] false 0
      Value.null Value.null "blockhash").2.2.1 _ rfl,
   (converter_error_codes [Value.str "x"] [Value_type.int_type] false 0
      Value.null Value.null "blockhash").2.2.2.1⟩

theorem execute_none (t : CRPCTable) (st : NodeState) (method : String)
    (params : List Value) (h : t.opIndex method = none) :
    t.execute st method params =
      .error (JSONRPCError RPC_METHOD_NOT_FOUND "Method not found") := by
  unfold CRPCTable.execute
  rw [h]

theorem execute_some (t : CRPCTable) (st : NodeState) (method : String)
    (params : List Value) (cmd : CRPCCommand) (h : t.opIndex method = some cmd) :
    t.execute st method params =
      if st.fSafeMode && !cmd.okSafeMode then
        .error (JSONRPCError RPC_FORBIDDEN_BY_SAFE_MODE "Safe mode")
      else if cmd.unlocked then
        match EnsureWalletIsUnlocked st with
        | .error e => .error e
        | .ok _ => invokeActor cmd params
      else invokeActor cmd params := by
  unfold CRPCTable.execute
  rw [h]

/-- Claim C9: for every input, execute yields either a result value or a
single error value; when every error thrown by the resolved handler is a well
formed code and message object, every error escaping execute is well formed
too, because the dispatcher wraps unstructured internal faults as
RPC_MISC_ERROR objects instead of letting them escape; and a handler failure
is never swallowed: with a failing handler the dispatcher reports an error. -/
theorem execute_total_structured (t : CRPCTable) (st : NodeState)
    (method : String) (params : List Value) :
    ((∃ v, t.execute st method params = .ok v) ∨
      (∃ e, t.execute st method params = .error e)) ∧
    ((∀ cmd, t.opIndex method = some cmd →
        ∀ ev, cmd.actor params false = .error (.thrown ev) → isErrObj ev = true) →
      ∀ e, t.execute st method params = .error e → isErrObj e = true) ∧
    (∀ cmd f, t.opIndex method = some cmd → cmd.actor params false = .error f →
      ∃ e, t.execute st method params = .error e) := by
  refine ⟨?_, ?_, ?_⟩
  · cases h : t.execute st method params with
    | ok v => exact Or.inl ⟨v, rfl⟩
    | error e => exact Or.inr ⟨e, rfl⟩
  · intro hthrown e he
    cases hcm : t.opIndex method with
    | none =>
      rw [execute_none t st method params hcm] at he
      cases he
      rfl
    | some cmd =>
      rw [execute_some t st method params cmd hcm] at he
      by_cases hsm : (st.fSafeMode && !cmd.okSafeMode) = true
      · rw [if_pos hsm] at he
        cases he
        rfl
      rw [if_neg hsm] at he
      have hinv : invokeActor cmd params = .error e → isErrObj e = true := by
        intro hia
        unfold invokeActor at hia
        cases hact : cmd.actor params false with
        | ok v =>
          rw [hact] at hia
          exact Except.noConfusion hia
        | error f =>
          rw [hact] at hia
          cases f with
          | thrown ev =>
            cases hia
            exact hthrown cmd hcm _ hact
          | exn m =>
            cases hia
            rfl
      by_cases hu : cmd.unlocked = true
      · rw [if_pos hu] at he
        unfold EnsureWalletIsUnlocked at he
        by_cases hl : walletIsLocked st = true
        · rw [if_pos hl] at he
          cases he
          rfl
        · rw [if_neg hl] at he
          exact hinv he
      · rw [if_neg hu] at he
        exact hinv he
  · intro cmd f hcm hact
    rw [execute_some t st method params cmd hcm]
    have hinv : ∃ e, invokeActor cmd params = .error e := by
      unfold invokeActor
      rw [hact]
      cases f with
      | thrown ev => exact ⟨ev, rfl⟩
      | exn m => exact ⟨JSONRPCError RPC_MISC_ERROR m, rfl⟩
    by_cases hsm : (st.fSafeMode && !cmd.okSafeMode) = true
    · exact ⟨_, by rw [if_pos hsm]⟩
    rw [if_neg hsm]
    by_cases hu : cmd.unlocked = true
    · rw [if_pos hu]
      unfold EnsureWalletIsUnlocked
      by_cases hl : walletIsLocked st = true
      · exact ⟨_, by rw [if_pos hl]⟩
      · rw [if_neg hl]
        exact hinv
    · rw [if_neg hu]
      exact hinv

theorem execute_total_structured_witness :
    (∃ e, demoTable.execute lockedState "boom" [] = .error e) ∧
    (∀ e, demoTable.execute lockedState "boom" [] = .error e → isErrObj e = true) :=
  ⟨(execute_total_structured demoTable lockedState "boom" []).2.2 failCmd
      (.exn "boom") rfl rfl,
   (execute_total_structured demoTable lockedState "boom" []).2.1
      (fun cmd hcm ev hev => by
        cases hcm
        exact HandlerFailure.noConfusion (Except.error.inj hev))⟩

end IocoinRPC
